import Mathlib

/-!
Shallow embedding of the container-scanning pipeline
(`src/scanner/exception_manager.py`, `src/scanner/retry_handler.py`,
`src/scripts/threshold_checker.py`) and proofs of the specification claims
about it.

Conventions of the embedding:
* time is modelled as `Int` (seconds); `datetime.now()` becomes an explicit
  `now : Int` argument;
* a date string is modelled by `DateStr`: either a well-formed ISO string
  denoting a time, or a malformed string; `datetime.fromisoformat` becomes
  `fromisoformat : DateStr → Except String Int`, which succeeds exactly on
  well-formed strings;
* Python dictionaries with a fixed shape become structures; dictionaries used
  as maps become association lists (`List (key × value)`) looked up with
  `List.lookup` (first match, keys kept unique by `dictSet`);
* raised exceptions become `Except String`.
-/

/-- A date string as stored in the exceptions ledger: `iso t` is a well-formed
ISO-8601 timestamp denoting the instant `t`; `malformed s` is any string that
`datetime.fromisoformat` rejects. -/
inductive DateStr where
  | iso (t : Int)
  | malformed (s : String)
deriving DecidableEq, Repr

/-- `datetime.fromisoformat`: parses a well-formed date string to its instant,
raises `ValueError` on a malformed one. -/
def fromisoformat : DateStr → Except String Int
  | DateStr.iso t => Except.ok t
  | DateStr.malformed s => Except.error ("ValueError: " ++ s)

/-- One record of the exceptions ledger, as built by
`ExceptionManager.add_exception`. -/
structure ExceptionRec where
  cve_id : String
  reason : String
  added_date : DateStr
  expiry_date : DateStr
  approved_by : Option String
  hash : String
deriving DecidableEq, Repr

/-- The exceptions ledger `self.exceptions`: key `'global'` and key
`'image_specific'` (a dict from image name to a list of records). -/
structure Ledger where
  globalExc : List ExceptionRec
  image_specific : List (String × List ExceptionRec)
deriving DecidableEq, Repr

/-- Python dict assignment `d[k] = v` on an association list: replace the
value at `k` if present, otherwise append the new key. -/
def dictSet (d : List (String × List ExceptionRec)) (k : String)
    (v : List ExceptionRec) : List (String × List ExceptionRec) :=
  if (d.lookup k).isSome then
    d.map (fun p => if p.1 = k then (k, v) else p)
  else
    d ++ [(k, v)]

/-- `ExceptionManager.add_exception`: builds a record and appends it to the
image's list when `image` is given, to the global list otherwise.
`hashFn` stands for `hashlib.sha256(...).hexdigest()[:8]` applied to
`f"{cve_id}{reason}"`; `expiry_days * 86400` models `timedelta(days=...)`.
Returns the updated ledger and the new record. -/
def add_exception (hashFn : String → String) (now : Int) (l : Ledger)
    (cve_id reason : String) (expiry_days : Int) (image : Option String)
    (approved_by : Option String) : Ledger × ExceptionRec :=
  let exc : ExceptionRec :=
    { cve_id := cve_id
      reason := reason
      added_date := DateStr.iso now
      expiry_date := DateStr.iso (now + expiry_days * 86400)
      approved_by := approved_by
      hash := hashFn (cve_id ++ reason) }
  match image with
  | some img =>
      let old := (l.image_specific.lookup img).getD []
      ({ l with image_specific := dictSet l.image_specific img (old ++ [exc]) },
       exc)
  | none =>
      ({ l with globalExc := l.globalExc ++ [exc] }, exc)

/-- The loop body of `get_active_exceptions` over one record list: collect the
`cve_id` of every record whose parsed expiry is strictly later than `now`;
a record whose expiry fails to parse raises. -/
def activeFrom (now : Int) : List ExceptionRec → Except String (List String)
  | [] => Except.ok []
  | e :: rest => do
      let t ← fromisoformat e.expiry_date
      let rest' ← activeFrom now rest
      if now < t then pure (e.cve_id :: rest') else pure rest'

/-- `ExceptionManager.get_active_exceptions`: global records always, image
records only when `image` is truthy (non-`None`, non-empty) and present in the
`image_specific` dict.  The Python set is modelled as a list; an id is in the
list iff it would be in the set. -/
def get_active_exceptions (l : Ledger) (now : Int) (image : Option String) :
    Except String (List String) := do
  let g ← activeFrom now l.globalExc
  let i ← match image with
    | some img =>
        if img = "" then pure []
        else
          match l.image_specific.lookup img with
          | some recs => activeFrom now recs
          | none => pure []
    | none => pure []
  pure (g ++ i)

/-- One finding of a scan result (`cve` dict): `severity` is `none` when the
key is absent (`cve.get('severity', 'UNKNOWN')` then defaults it). -/
structure Cve where
  id : String
  severity : Option String
deriving DecidableEq, Repr

/-- A scan-results dict.  `excepted_cves` / `excepted_count` are `none` when
the keys are absent (as in a result fresh from the scanner). -/
structure ScanResult where
  cve_list : List Cve
  severity_summary : List (String × Int)
  total_vulnerabilities : Int
  excepted_cves : Option (List Cve)
  excepted_count : Option Nat
deriving DecidableEq, Repr

/-- The five-key summary dict `{level: 0 for level in [...]}`. -/
def initSummary : List (String × Int) :=
  [("CRITICAL", 0), ("HIGH", 0), ("MEDIUM", 0), ("LOW", 0), ("UNKNOWN", 0)]

/-- `severity_summary[severity] += 1` guarded by
`if severity in severity_summary`: increment the entry at the key if present,
otherwise leave the dict unchanged. -/
def bumpSeverity (d : List (String × Int)) (k : String) : List (String × Int) :=
  d.map (fun p => if p.1 = k then (p.1, p.2 + 1) else p)

/-- The recount loop of `filter_scan_results`: fold the retained findings into
the five-key summary, defaulting a missing severity to `UNKNOWN`. -/
def recountSummary (cves : List Cve) : List (String × Int) :=
  cves.foldl (fun d c => bumpSeverity d (c.severity.getD "UNKNOWN")) initSummary

/-- `sum(severity_summary.values())`. -/
def sumValues (d : List (String × Int)) : Int :=
  (d.map Prod.snd).sum

/-- The filtering branch of `filter_scan_results` (reached when some
exception is active): split the findings into retained and excepted by id,
then recompute the summary and total from the retained findings. -/
def applyFilter (acts : List String) (res : ScanResult) : ScanResult :=
  let filtered := res.cve_list.filter (fun c => ¬ acts.contains c.id)
  let excepted := res.cve_list.filter (fun c => acts.contains c.id)
  let summary := recountSummary filtered
  { res with
    cve_list := filtered
    excepted_cves := some excepted
    excepted_count := some excepted.length
    severity_summary := summary
    total_vulnerabilities := sumValues summary }

/-- `ExceptionManager.filter_scan_results`: with no active exceptions the
input is returned as-is; otherwise `applyFilter` rebuilds the result. -/
def filter_scan_results (l : Ledger) (now : Int) (image : Option String)
    (res : ScanResult) : Except String ScanResult := do
  let acts ← get_active_exceptions l now image
  if acts = [] then
    pure res
  else
    pure (applyFilter acts res)

/-- The list-comprehension filter of `cleanup_expired_exceptions` over one
record list: keep records whose parsed expiry is strictly later than `now`;
a record whose expiry fails to parse raises. -/
def keepUnexpired (now : Int) : List ExceptionRec → Except String (List ExceptionRec)
  | [] => Except.ok []
  | e :: rest => do
      let t ← fromisoformat e.expiry_date
      let rest' ← keepUnexpired now rest
      if now < t then pure (e :: rest') else pure rest'

/-- Helper for the per-image cleanup loop: sweep every image's record list. -/
def sweepImages (now : Int) :
    List (String × List ExceptionRec) →
    Except String (List (String × List ExceptionRec))
  | [] => Except.ok []
  | (img, recs) :: rest => do
      let recs' ← keepUnexpired now recs
      let rest' ← sweepImages now rest
      pure ((img, recs') :: rest')

/-- `ExceptionManager.cleanup_expired_exceptions`: drop every global and
image-scoped record with `expiry_date <= now`, keeping the rest. -/
def cleanup_expired_exceptions (now : Int) (l : Ledger) : Except String Ledger := do
  let g ← keepUnexpired now l.globalExc
  let imgs ← sweepImages now l.image_specific
  pure { globalExc := g, image_specific := imgs }

/-- Circuit breaker state string: `'closed'`, `'open'`, `'half-open'`. -/
inductive CBState where
  | closed
  | opened
  | halfOpen
deriving DecidableEq, Repr

/-- The mutable fields of a `CircuitBreaker` instance. -/
structure CircuitBreaker where
  failure_threshold : Nat
  recovery_timeout : Int
  failure_count : Nat
  last_failure_time : Option Int
  state : CBState
deriving DecidableEq, Repr

/-- `CircuitBreaker(failure_threshold=5, recovery_timeout=60)`. -/
def CircuitBreaker.init (failure_threshold : Nat := 5)
    (recovery_timeout : Int := 60) : CircuitBreaker :=
  { failure_threshold := failure_threshold
    recovery_timeout := recovery_timeout
    failure_count := 0
    last_failure_time := none
    state := CBState.closed }

/-- What one `CircuitBreaker.call` did: rejected without executing the wrapped
function, executed it and returned its result, or executed it and re-raised
its exception. -/
inductive CallOutcome where
  | rejected
  | succeeded
  | failed
deriving DecidableEq, Repr

/-- `CircuitBreaker.call`: `now` is `time.time()` during the call and `ok`
tells whether the wrapped function succeeds when executed.  Returns the
breaker after the call and what happened. -/
def CircuitBreaker.call (cb : CircuitBreaker) (now : Int) (ok : Bool) :
    CircuitBreaker × CallOutcome :=
  let gate :=
    if cb.state = CBState.opened then
      if cb.recovery_timeout < now - cb.last_failure_time.getD 0 then
        Except.ok { cb with state := CBState.halfOpen }
      else
        Except.error ()
    else
      Except.ok cb
  match gate with
  | Except.error () => (cb, CallOutcome.rejected)
  | Except.ok cb' =>
      if ok then
        if cb'.state = CBState.halfOpen then
          ({ cb' with state := CBState.closed, failure_count := 0 },
           CallOutcome.succeeded)
        else
          (cb', CallOutcome.succeeded)
      else
        let fc := cb'.failure_count + 1
        ({ cb' with
           failure_count := fc
           last_failure_time := some now
           state := if cb'.failure_threshold ≤ fc then CBState.opened
                    else cb'.state },
         CallOutcome.failed)

/-- The retry loop of `RetryHandler.retry_with_backoff`.  `f n` is the outcome
of attempt number `n` (0-based); `remaining` is how many further attempts the
loop may make; `delay` is the current sleep length.  Returns the final outcome
(the value returned, or the exception re-raised after exhaustion), the number
of times `f` was invoked, and the list of delays slept, in order. -/
def retryGo (f : Nat → Except String α) (backoff_factor max_delay : ℚ)
    (attempt : Nat) (remaining : Nat) (delay : ℚ) :
    Except String α × Nat × List ℚ :=
  match f attempt with
  | Except.ok a => (Except.ok a, 1, [])
  | Except.error e =>
      match remaining with
      | 0 => (Except.error e, 1, [])
      | r + 1 =>
          let rec' := retryGo f backoff_factor max_delay (attempt + 1) r
            (min (delay * backoff_factor) max_delay)
          (rec'.1, rec'.2.1 + 1, delay :: rec'.2.2)

/-- `RetryHandler.retry_with_backoff(max_retries, initial_delay,
backoff_factor, max_delay)` applied to an operation `f`. -/
def retry_with_backoff (f : Nat → Except String α) (max_retries : Nat := 3)
    (initial_delay : ℚ := 1) (backoff_factor : ℚ := 2) (max_delay : ℚ := 60) :
    Except String α × Nat × List ℚ :=
  retryGo f backoff_factor max_delay 0 max_retries initial_delay

/-- One entry of the `thresholds` config: `max_allowed` and `action` are
`none` when the keys are absent. -/
structure Threshold where
  max_allowed : Option Int
  action : Option String
deriving DecidableEq, Repr

/-- One violation record built by `ThresholdChecker.check`. -/
structure Violation where
  severity : String
  count : Int
  max_allowed : Int
  action : String
deriving DecidableEq, Repr

/-- The `check_results` dict. -/
structure CheckResults where
  passed : Bool
  violations : List Violation
  actions : List String
deriving DecidableEq, Repr

/-- Python's `severity.lower()`: lower-case a string character by
character. -/
def strLower (s : String) : String :=
  String.mk (s.data.map Char.toLower)

/-- One iteration of the `for severity, count in severity_summary.items()`
loop of `ThresholdChecker.check`: when the lower-cased severity is configured
and the count strictly exceeds `max_allowed` (default 999), set `passed` to
`False` and append a violation and its action (default `'log'`). -/
def checkStep (thresholds : List (String × Threshold)) (cr : CheckResults)
    (sc : String × Int) : CheckResults :=
  match thresholds.lookup (strLower sc.1) with
  | none => cr
  | some t =>
      let maxA := t.max_allowed.getD 999
      if maxA < sc.2 then
        { passed := false
          violations := cr.violations ++
            [{ severity := sc.1, count := sc.2, max_allowed := maxA,
               action := t.action.getD "log" }]
          actions := cr.actions ++ [t.action.getD "log"] }
      else cr

/-- `ThresholdChecker.check`: walk the severity summary with `checkStep`,
starting from `{'passed': True, 'violations': [], 'actions': []}`. -/
def ThresholdChecker.check (thresholds : List (String × Threshold))
    (severity_summary : List (String × Int)) : CheckResults :=
  severity_summary.foldl (checkStep thresholds)
    { passed := true, violations := [], actions := [] }

/-- The exit-code choice at the end of `threshold_checker.main`:
`sys.exit(1)` when `'block'` is among the actions, `sys.exit(0)` when only
`'warn'` is, `sys.exit(0)` otherwise. -/
def mainExitCode (cr : CheckResults) : Nat :=
  if cr.actions.contains "block" then 1
  else if cr.actions.contains "warn" then 0
  else 0

/-- The five severity levels the recount loop counts. -/
def fiveLevels : List String :=
  ["CRITICAL", "HIGH", "MEDIUM", "LOW", "UNKNOWN"]

/-- A finding whose (defaulted) severity is one of the five counted levels. -/
def knownSev (c : Cve) : Bool :=
  fiveLevels.contains (c.severity.getD "UNKNOWN")

/-- A ledger record whose expiry parses and lies strictly after `now`. -/
def isUnexpired (now : Int) (e : ExceptionRec) : Bool :=
  match fromisoformat e.expiry_date with
  | Except.ok t => decide (now < t)
  | Except.error _ => false

/-- A sequence of failing calls through a circuit breaker, one at each listed
time. -/
def failSeq (cb : CircuitBreaker) (ts : List Int) : CircuitBreaker :=
  ts.foldl (fun c t => (c.call t false).1) cb

/- Association-list lemmas for `dictSet`. -/

theorem lookupMapSet_self (k : String) (v : List ExceptionRec) :
    ∀ d : List (String × List ExceptionRec), (d.lookup k).isSome = true →
      (d.map (fun p => if p.1 = k then (k, v) else p)).lookup k = some v := by
  intro d
  induction d with
  | nil => intro h; simp [List.lookup] at h
  | cons p rest ih =>
      obtain ⟨a, b⟩ := p
      intro h
      simp only [List.map_cons]
      by_cases hk : a = k
      · subst hk
        rw [if_pos rfl]
        simp [List.lookup]
      · rw [if_neg hk]
        have h' : (rest.lookup k).isSome = true := by
          simpa [List.lookup, beq_false_of_ne (fun he => hk he.symm)] using h
        simpa [List.lookup, beq_false_of_ne (fun he => hk he.symm)]
          using ih h'

theorem lookupMapSet_other (k j : String) (v : List ExceptionRec) (hj : j ≠ k) :
    ∀ d : List (String × List ExceptionRec),
      (d.map (fun p => if p.1 = k then (k, v) else p)).lookup j = d.lookup j := by
  intro d
  induction d with
  | nil => simp
  | cons p rest ih =>
      obtain ⟨a, b⟩ := p
      simp only [List.map_cons]
      by_cases hk : a = k
      · subst hk
        rw [if_pos rfl]
        simp [List.lookup, beq_false_of_ne hj, ih]
      · rw [if_neg hk]
        by_cases ha : j = a
        · subst ha
          simp [List.lookup]
        · simp [List.lookup, beq_false_of_ne ha, ih]

theorem lookupAppendOne_other (k j : String) (v : List ExceptionRec)
    (hj : j ≠ k) :
    ∀ d : List (String × List ExceptionRec),
      (d ++ [(k, v)]).lookup j = d.lookup j := by
  intro d
  induction d with
  | nil => simp [List.lookup, beq_false_of_ne hj]
  | cons p rest ih =>
      obtain ⟨a, b⟩ := p
      by_cases ha : j = a
      · subst ha
        simp [List.lookup]
      · simp [List.lookup, beq_false_of_ne ha, ih]

theorem dictSet_lookup_self (d : List (String × List ExceptionRec))
    (k : String) (v : List ExceptionRec) :
    (dictSet d k v).lookup k = some v := by
  unfold dictSet
  split
  · rename_i h
    exact lookupMapSet_self k v d h
  · induction d with
    | nil => simp [List.lookup]
    | cons p rest ih =>
        rename_i h
        obtain ⟨a, b⟩ := p
        by_cases hk : a = k
        · exfalso
          apply h
          subst hk
          simp [List.lookup]
        · have hn : ¬ (List.lookup k rest).isSome = true := by
            intro hs
            apply h
            simp [List.lookup, beq_false_of_ne (fun he => hk he.symm), hs]
          simpa [List.lookup, beq_false_of_ne (fun he => hk he.symm)]
            using ih hn

theorem dictSet_lookup_other (d : List (String × List ExceptionRec))
    (k j : String) (v : List ExceptionRec) (hj : j ≠ k) :
    (dictSet d k v).lookup j = d.lookup j := by
  unfold dictSet
  split
  · exact lookupMapSet_other k j v hj d
  · exact lookupAppendOne_other k j v hj d

/-- C10: `add_exception` is frame-preserving for the scope it targets: a
global add appends one record to the global list and leaves the whole
image-specific dict unchanged; an image add leaves the global list unchanged,
appends one record to that image's list, and leaves every other image's list
unchanged. -/
theorem add_exception_frame (hashFn : String → String) (now : Int) (l : Ledger)
    (cve_id reason : String) (expiry_days : Int) (approved_by : Option String)
    (img j : String) (hj : j ≠ img) :
    ((add_exception hashFn now l cve_id reason expiry_days none approved_by).1.globalExc
        = l.globalExc
          ++ [(add_exception hashFn now l cve_id reason expiry_days none approved_by).2]
      ∧ (add_exception hashFn now l cve_id reason expiry_days none approved_by).1.image_specific
        = l.image_specific)
    ∧ ((add_exception hashFn now l cve_id reason expiry_days (some img) approved_by).1.globalExc
        = l.globalExc
      ∧ (add_exception hashFn now l cve_id reason expiry_days (some img) approved_by).1.image_specific.lookup img
        = some ((l.image_specific.lookup img).getD []
            ++ [(add_exception hashFn now l cve_id reason expiry_days (some img) approved_by).2])
      ∧ (add_exception hashFn now l cve_id reason expiry_days (some img) approved_by).1.image_specific.lookup j
        = l.image_specific.lookup j) := by
  refine ⟨⟨rfl, rfl⟩, rfl, ?_, ?_⟩
  · simp [add_exception, dictSet_lookup_self]
  · simp [add_exception, dictSet_lookup_other _ _ _ _ hj]

/-- Witness for `add_exception_frame` at a concrete ledger and images. -/
theorem add_exception_frame_witness :
    ((add_exception (fun _ => "h") 0 ⟨[], []⟩ "CVE-1" "r" 30 none none).1.globalExc
        = [] ++ [(add_exception (fun _ => "h") 0 ⟨[], []⟩ "CVE-1" "r" 30 none none).2]
      ∧ (add_exception (fun _ => "h") 0 ⟨[], []⟩ "CVE-1" "r" 30 none none).1.image_specific = [])
    ∧ ((add_exception (fun _ => "h") 0 ⟨[], []⟩ "CVE-1" "r" 30 (some "img-a") none).1.globalExc = []
      ∧ (add_exception (fun _ => "h") 0 ⟨[], []⟩ "CVE-1" "r" 30 (some "img-a") none).1.image_specific.lookup "img-a"
        = some (((⟨[], []⟩ : Ledger).image_specific.lookup "img-a").getD []
            ++ [(add_exception (fun _ => "h") 0 ⟨[], []⟩ "CVE-1" "r" 30 (some "img-a") none).2])
      ∧ (add_exception (fun _ => "h") 0 ⟨[], []⟩ "CVE-1" "r" 30 (some "img-a") none).1.image_specific.lookup "img-b"
        = ([] : List (String × List ExceptionRec)).lookup "img-b") :=
  add_exception_frame (fun _ => "h") 0 ⟨[], []⟩ "CVE-1" "r" 30 none "img-a" "img-b"
    (by decide)

/-- C2 counterexample: with an empty ledger nothing is active, and the filter
returns the input scan result itself: the result carries no
`excepted_cves`/`excepted_count` fields at all, rather than an empty list and
a zero count. -/
theorem filter_no_active_not_wrapped :
    filter_scan_results ⟨[], []⟩ 0 none
        ⟨[⟨"CVE-2", some "HIGH"⟩], [("HIGH", 1)], 1, none, none⟩
      = Except.ok ⟨[⟨"CVE-2", some "HIGH"⟩], [("HIGH", 1)], 1, none, none⟩
    ∧ (⟨[⟨"CVE-2", some "HIGH"⟩], [("HIGH", 1)], 1, none, none⟩ :
        ScanResult).excepted_count ≠ some 0
    ∧ (⟨[⟨"CVE-2", some "HIGH"⟩], [("HIGH", 1)], 1, none, none⟩ :
        ScanResult).excepted_cves ≠ some [] := by
  refine ⟨rfl, ?_, ?_⟩ <;> decide

/-- C2 (amended): when no exceptions are active, `filter_scan_results`
returns the input scan result unchanged — no excepted-findings fields are
added — and, being a pure read, it has no side effect on the ledger. -/
theorem filter_no_active_id (l : Ledger) (now : Int) (image : Option String)
    (res : ScanResult)
    (h : get_active_exceptions l now image = Except.ok []) :
    filter_scan_results l now image res = Except.ok res := by
  unfold filter_scan_results
  rw [h]
  rfl

/-- Witness for `filter_no_active_id` on an empty ledger. -/
theorem filter_no_active_id_witness :
    filter_scan_results ⟨[], []⟩ 0 none
        ⟨[⟨"CVE-1", some "HIGH"⟩], [("HIGH", 1)], 1, none, none⟩
      = Except.ok ⟨[⟨"CVE-1", some "HIGH"⟩], [("HIGH", 1)], 1, none, none⟩ :=
  filter_no_active_id ⟨[], []⟩ 0 none
    ⟨[⟨"CVE-1", some "HIGH"⟩], [("HIGH", 1)], 1, none, none⟩ rfl

/-- `checkStep` preserves the three `check_results` invariants: the actions
list mirrors the violations' actions, `passed` is emptiness of the
violations, and every violation strictly exceeds its recorded threshold and
names a configured severity. -/
theorem checkStep_invariant (th : List (String × Threshold))
    (cr : CheckResults) (sc : String × Int)
    (h1 : cr.actions = cr.violations.map Violation.action)
    (h2 : cr.passed = cr.violations.isEmpty)
    (h3 : ∀ v ∈ cr.violations,
      v.max_allowed < v.count ∧ (th.lookup (strLower v.severity)).isSome = true) :
    (checkStep th cr sc).actions
        = (checkStep th cr sc).violations.map Violation.action
    ∧ (checkStep th cr sc).passed = (checkStep th cr sc).violations.isEmpty
    ∧ ∀ v ∈ (checkStep th cr sc).violations,
        v.max_allowed < v.count
        ∧ (th.lookup (strLower v.severity)).isSome = true := by
  unfold checkStep
  split
  · exact ⟨h1, h2, h3⟩
  · rename_i t hl
    dsimp only
    split
    · rename_i hc
      refine ⟨by simp [h1], by simp, ?_⟩
      intro v hv
      rcases List.mem_append.mp hv with hv | hv
      · exact h3 v hv
      · simp only [List.mem_singleton] at hv
        subst hv
        exact ⟨hc, by simp [hl]⟩
    · exact ⟨h1, h2, h3⟩

/-- The fold in `ThresholdChecker.check` preserves the `checkStep`
invariants from any accumulator that satisfies them. -/
theorem checkFold_invariant (th : List (String × Threshold)) :
    ∀ (s : List (String × Int)) (cr : CheckResults),
      cr.actions = cr.violations.map Violation.action →
      cr.passed = cr.violations.isEmpty →
      (∀ v ∈ cr.violations,
        v.max_allowed < v.count ∧ (th.lookup (strLower v.severity)).isSome = true) →
      (s.foldl (checkStep th) cr).actions
          = (s.foldl (checkStep th) cr).violations.map Violation.action
      ∧ (s.foldl (checkStep th) cr).passed
          = (s.foldl (checkStep th) cr).violations.isEmpty
      ∧ ∀ v ∈ (s.foldl (checkStep th) cr).violations,
          v.max_allowed < v.count
          ∧ (th.lookup (strLower v.severity)).isSome = true := by
  intro s
  induction s with
  | nil => intro cr h1 h2 h3; exact ⟨h1, h2, h3⟩
  | cons sc rest ih =>
      intro cr h1 h2 h3
      simp only [List.foldl_cons]
      obtain ⟨g1, g2, g3⟩ := checkStep_invariant th cr sc h1 h2 h3
      exact ih (checkStep th cr sc) g1 g2 g3

/-- C7 counterexample: with a configured `max_allowed` of `-1`, an observed
count of `0` is recorded as a violation, so a count of 0 is not
violation-free "regardless of maxAllowed". -/
theorem check_zero_count_violation :
    (ThresholdChecker.check [("critical", ⟨some (-1), some "block"⟩)]
        [("CRITICAL", 0)]).violations
      = [⟨"CRITICAL", 0, -1, "block"⟩]
    ∧ (ThresholdChecker.check [("critical", ⟨some (-1), some "block"⟩)]
        [("CRITICAL", 0)]).passed = false := by
  refine ⟨?_, ?_⟩ <;> rfl

/-- C7 (amended): `passed` is exactly emptiness of the violations; every
violation strictly exceeds its severity's `max_allowed` (so an exact boundary
count is never a violation, and a count of 0 is only a violation when
`max_allowed` is negative), and every violation names a severity configured
in the policy (unconfigured severities are never violations). -/
theorem check_violations_strict (th : List (String × Threshold))
    (s : List (String × Int)) :
    (ThresholdChecker.check th s).passed
        = (ThresholdChecker.check th s).violations.isEmpty
    ∧ ∀ v ∈ (ThresholdChecker.check th s).violations,
        v.max_allowed < v.count
        ∧ (th.lookup (strLower v.severity)).isSome = true
        ∧ (0 ≤ v.max_allowed → v.count ≠ 0) := by
  obtain ⟨-, hp, hv⟩ := checkFold_invariant th s ⟨true, [], []⟩ rfl rfl
    (by intro v hv; simp at hv)
  refine ⟨hp, ?_⟩
  intro v hmem
  obtain ⟨ha, hb⟩ := hv v hmem
  refine ⟨ha, hb, ?_⟩
  intro h0
  omega

/-- Witness for `check_violations_strict` on a concrete policy and summary. -/
theorem check_violations_strict_witness :
    (ThresholdChecker.check [("critical", ⟨some 5, some "block"⟩)]
        [("CRITICAL", 10)]).passed
      = (ThresholdChecker.check [("critical", ⟨some 5, some "block"⟩)]
        [("CRITICAL", 10)]).violations.isEmpty
    ∧ (Violation.mk "CRITICAL" 10 5 "block").max_allowed
        < (Violation.mk "CRITICAL" 10 5 "block").count :=
  ⟨(check_violations_strict [("critical", ⟨some 5, some "block"⟩)]
      [("CRITICAL", 10)]).1,
   ((check_violations_strict [("critical", ⟨some 5, some "block"⟩)]
      [("CRITICAL", 10)]).2 ⟨"CRITICAL", 10, 5, "block"⟩ (by decide)).1⟩

/-- C8: the CLI exit code chosen by `main` is non-zero exactly when a
`'block'` action is among the triggered violations' actions; with only
`'warn'`/`'log'` actions or no violations it is zero. -/
theorem exit_code_iff_block (th : List (String × Threshold))
    (s : List (String × Int)) :
    mainExitCode (ThresholdChecker.check th s) ≠ 0 ↔
      "block" ∈ (ThresholdChecker.check th s).violations.map Violation.action := by
  obtain ⟨hact, -, -⟩ := checkFold_invariant th s ⟨true, [], []⟩ rfl rfl
    (by intro v hv; simp at hv)
  unfold mainExitCode ThresholdChecker.check
  rw [← hact]
  by_cases hb : "block" ∈ (List.foldl (checkStep th)
      { passed := true, violations := [], actions := [] } s).actions
  · simp [hb, List.contains]
  · simp [hb, List.contains]

/-- C4 counterexample: in the Closed state a successful call does not reset
`failure_count` to 0 — after one failure and one success the count is still
1 (the reset only happens on a successful half-open probe). -/
theorem closed_success_no_reset :
    ((((CircuitBreaker.init 5 60).call 0 false).1.call 1 true).1.failure_count = 1)
    ∧ ¬ ((((CircuitBreaker.init 5 60).call 0 false).1.call 1 true).1.failure_count
          = 0) := by
  decide

/-- C4 (amended): in the Closed state a successful call returns the breaker
unchanged — in particular `failure_count` is NOT reset there — while a failed
call increments `failure_count`, records `last_failure_time := now`, and
transitions Closed to Open exactly when the incremented count reaches
`failure_threshold`. -/
theorem closed_call_spec (cb : CircuitBreaker) (now : Int)
    (h : cb.state = CBState.closed) :
    cb.call now true = (cb, CallOutcome.succeeded)
    ∧ (cb.call now false).2 = CallOutcome.failed
    ∧ (cb.call now false).1.failure_count = cb.failure_count + 1
    ∧ (cb.call now false).1.last_failure_time = some now
    ∧ ((cb.call now false).1.state = CBState.opened
        ↔ cb.failure_threshold ≤ cb.failure_count + 1) := by
  refine ⟨?_, ?_, ?_, ?_, ?_⟩ <;>
    simp [CircuitBreaker.call, h]

/-- Witness for `closed_call_spec` on a fresh default breaker. -/
theorem closed_call_spec_witness :
    (CircuitBreaker.init 5 60).call 7 true
        = (CircuitBreaker.init 5 60, CallOutcome.succeeded)
    ∧ ((CircuitBreaker.init 5 60).call 7 false).2 = CallOutcome.failed
    ∧ ((CircuitBreaker.init 5 60).call 7 false).1.failure_count
        = (CircuitBreaker.init 5 60).failure_count + 1
    ∧ ((CircuitBreaker.init 5 60).call 7 false).1.last_failure_time = some 7
    ∧ (((CircuitBreaker.init 5 60).call 7 false).1.state = CBState.opened
        ↔ (CircuitBreaker.init 5 60).failure_threshold
            ≤ (CircuitBreaker.init 5 60).failure_count + 1) :=
  closed_call_spec (CircuitBreaker.init 5 60) 7 rfl

/-- C5: after 5 consecutive failures on a default breaker
(threshold 5, recovery timeout 60) the breaker is Open with count 5; a call
within the recovery timeout of the last failure is rejected without executing
the wrapped operation and leaves the breaker unchanged; a call strictly after
the timeout runs as a probe and, succeeding, leaves the breaker Closed with
`failure_count = 0`. -/
theorem circuit_trip_and_recovery (t1 t2 t3 t4 t5 t t' : Int) (b : Bool) :
    (failSeq (CircuitBreaker.init 5 60) [t1, t2, t3, t4, t5]).state
        = CBState.opened
    ∧ (failSeq (CircuitBreaker.init 5 60) [t1, t2, t3, t4, t5]).failure_count = 5
    ∧ (t - t5 ≤ 60 →
        (failSeq (CircuitBreaker.init 5 60) [t1, t2, t3, t4, t5]).call t b
          = (failSeq (CircuitBreaker.init 5 60) [t1, t2, t3, t4, t5],
             CallOutcome.rejected))
    ∧ (60 < t' - t5 →
        (failSeq (CircuitBreaker.init 5 60) [t1, t2, t3, t4, t5]).call t' true
          = ({ failSeq (CircuitBreaker.init 5 60) [t1, t2, t3, t4, t5] with
               state := CBState.closed, failure_count := 0 },
             CallOutcome.succeeded)) := by
  have hc : failSeq (CircuitBreaker.init 5 60) [t1, t2, t3, t4, t5]
      = { failure_threshold := 5, recovery_timeout := 60, failure_count := 5,
          last_failure_time := some t5, state := CBState.opened } := rfl
  rw [hc]
  refine ⟨rfl, rfl, ?_, ?_⟩
  · intro ht
    have hne : ¬ ((60 : Int) < t - t5) := not_lt.mpr ht
    simp [CircuitBreaker.call, hne]
  · intro ht'
    simp [CircuitBreaker.call, ht']

/-- Witness for `circuit_trip_and_recovery` with failures at time 0, a
rejected call at time 30, and a successful probe at time 100. -/
theorem circuit_trip_and_recovery_witness :
    (failSeq (CircuitBreaker.init 5 60) [0, 0, 0, 0, 0]).state = CBState.opened
    ∧ (failSeq (CircuitBreaker.init 5 60) [0, 0, 0, 0, 0]).call 30 true
        = (failSeq (CircuitBreaker.init 5 60) [0, 0, 0, 0, 0],
           CallOutcome.rejected)
    ∧ (failSeq (CircuitBreaker.init 5 60) [0, 0, 0, 0, 0]).call 100 true
        = ({ failSeq (CircuitBreaker.init 5 60) [0, 0, 0, 0, 0] with
             state := CBState.closed, failure_count := 0 },
           CallOutcome.succeeded) :=
  ⟨(circuit_trip_and_recovery 0 0 0 0 0 30 100 true).1,
   (circuit_trip_and_recovery 0 0 0 0 0 30 100 true).2.2.1 (by decide),
   (circuit_trip_and_recovery 0 0 0 0 0 30 100 true).2.2.2 (by decide)⟩

/-- C6: an operation failing on every attempt, wrapped with `max_retries = 3`,
is invoked exactly 4 times; the error finally raised is exactly the one from
the last (fourth) attempt; and the delays slept before the retries are
`initial_delay` followed by `min(delay * backoff_factor, max_delay)` steps. -/
theorem retry_exhaustion (f : Nat → Except String α) (g : Nat → String)
    (hf : ∀ n, f n = Except.error (g n)) (d b m : ℚ) :
    retry_with_backoff f 3 d b m
      = (Except.error (g 3), 4,
         [d, min (d * b) m, min (min (d * b) m * b) m]) := by
  simp [retry_with_backoff, retryGo, hf]

/-- Witness for `retry_exhaustion` with the default delay parameters. -/
theorem retry_exhaustion_witness :
    retry_with_backoff (fun n => (Except.error (Nat.repr n) : Except String Nat))
        3 1 2 60
      = (Except.error (Nat.repr 3), 4,
         [1, min ((1 : ℚ) * 2) 60, min (min ((1 : ℚ) * 2) 60 * 2) 60]) :=
  retry_exhaustion (fun n => Except.error (Nat.repr n)) Nat.repr
    (fun _ => rfl) 1 2 60

/- Unfolding equations for the monadic loops, with the bind spelled out. -/

theorem activeFrom_cons (now : Int) (e : ExceptionRec) (rest : List ExceptionRec) :
    activeFrom now (e :: rest)
      = Except.bind (fromisoformat e.expiry_date) (fun t =>
          Except.bind (activeFrom now rest) (fun rest' =>
            if now < t then Except.ok (e.cve_id :: rest') else Except.ok rest')) :=
  rfl

theorem keepUnexpired_cons (now : Int) (e : ExceptionRec)
    (rest : List ExceptionRec) :
    keepUnexpired now (e :: rest)
      = Except.bind (fromisoformat e.expiry_date) (fun t =>
          Except.bind (keepUnexpired now rest) (fun rest' =>
            if now < t then Except.ok (e :: rest') else Except.ok rest')) :=
  rfl

theorem sweepImages_cons (now : Int) (img : String)
    (recs : List ExceptionRec) (rest : List (String × List ExceptionRec)) :
    sweepImages now ((img, recs) :: rest)
      = Except.bind (keepUnexpired now recs) (fun recs' =>
          Except.bind (sweepImages now rest) (fun rest' =>
            Except.ok ((img, recs') :: rest'))) :=
  rfl

theorem cleanup_eq (now : Int) (l : Ledger) :
    cleanup_expired_exceptions now l
      = Except.bind (keepUnexpired now l.globalExc) (fun g =>
          Except.bind (sweepImages now l.image_specific) (fun imgs =>
            Except.ok { globalExc := g, image_specific := imgs })) :=
  rfl

theorem filter_eq (l : Ledger) (now : Int) (image : Option String)
    (res : ScanResult) :
    filter_scan_results l now image res
      = Except.bind (get_active_exceptions l now image) (fun acts =>
          if acts = [] then Except.ok res else Except.ok (applyFilter acts res)) :=
  rfl

/-- If some record in the list has an unparseable expiry, the active-CVE
collection loop raises. -/
theorem activeFrom_error (now : Int) :
    ∀ xs : List ExceptionRec,
      (∃ e ∈ xs, (fromisoformat e.expiry_date).isOk = false) →
      (activeFrom now xs).isOk = false := by
  intro xs
  induction xs with
  | nil =>
      rintro ⟨e, he, -⟩
      exact absurd he (List.not_mem_nil e)
  | cons e0 rest ih =>
      rintro ⟨e, he, hbad⟩
      rw [activeFrom_cons]
      cases hfe : fromisoformat e0.expiry_date with
      | error m => rfl
      | ok t =>
          rcases List.mem_cons.mp he with rfl | hmem
          · rw [hfe] at hbad
            simp [Except.isOk, Except.toBool] at hbad
          · have hrec := ih ⟨e, hmem, hbad⟩
            cases har : activeFrom now rest with
            | error m2 => rfl
            | ok l2 => rw [har] at hrec; simp [Except.isOk, Except.toBool] at hrec

/-- If some record in the list has an unparseable expiry, the sweep loop
raises. -/
theorem keepUnexpired_error (now : Int) :
    ∀ xs : List ExceptionRec,
      (∃ e ∈ xs, (fromisoformat e.expiry_date).isOk = false) →
      (keepUnexpired now xs).isOk = false := by
  intro xs
  induction xs with
  | nil =>
      rintro ⟨e, he, -⟩
      exact absurd he (List.not_mem_nil e)
  | cons e0 rest ih =>
      rintro ⟨e, he, hbad⟩
      rw [keepUnexpired_cons]
      cases hfe : fromisoformat e0.expiry_date with
      | error m => rfl
      | ok t =>
          rcases List.mem_cons.mp he with rfl | hmem
          · rw [hfe] at hbad
            simp [Except.isOk, Except.toBool] at hbad
          · have hrec := ih ⟨e, hmem, hbad⟩
            cases har : keepUnexpired now rest with
            | error m2 => rfl
            | ok l2 => rw [har] at hrec; simp [Except.isOk, Except.toBool] at hrec

/-- C3 counterexample: a ledger whose single global record has a malformed
expiry makes both `get_active_exceptions` and `cleanup_expired_exceptions`
raise `ValueError` instead of treating the record as expired. -/
theorem malformed_expiry_error_concrete :
    get_active_exceptions
        ⟨[⟨"CVE-1", "r", DateStr.iso 0, DateStr.malformed "bad", none, "h"⟩], []⟩
        0 none
      = Except.error ("ValueError: " ++ "bad")
    ∧ cleanup_expired_exceptions 0
        ⟨[⟨"CVE-1", "r", DateStr.iso 0, DateStr.malformed "bad", none, "h"⟩], []⟩
      = Except.error ("ValueError: " ++ "bad") :=
  ⟨rfl, rfl⟩

/-- C3 (amended): a malformed expiry value on a global ledger record makes
both expiry-reading operations (`get_active_exceptions` and
`cleanup_expired_exceptions`) raise — the record is not treated as
already-expired and no active set is produced. -/
theorem malformed_expiry_raises (l : Ledger) (now : Int) (image : Option String)
    (e : ExceptionRec) (he : e ∈ l.globalExc)
    (hm : (fromisoformat e.expiry_date).isOk = false) :
    (get_active_exceptions l now image).isOk = false
    ∧ (cleanup_expired_exceptions now l).isOk = false := by
  constructor
  · have h1 := activeFrom_error now l.globalExc ⟨e, he, hm⟩
    unfold get_active_exceptions
    cases hg : activeFrom now l.globalExc with
    | error m => rfl
    | ok g => rw [hg] at h1; simp [Except.isOk, Except.toBool] at h1
  · have h1 := keepUnexpired_error now l.globalExc ⟨e, he, hm⟩
    rw [cleanup_eq]
    cases hg : keepUnexpired now l.globalExc with
    | error m => rfl
    | ok g => rw [hg] at h1; simp [Except.isOk, Except.toBool] at h1

/-- Witness for `malformed_expiry_raises` at a concrete one-record ledger. -/
theorem malformed_expiry_raises_witness :
    (get_active_exceptions
        ⟨[⟨"CVE-9", "r", DateStr.iso 0, DateStr.malformed "oops", none, "h"⟩],
         []⟩ 5 (some "img")).isOk = false
    ∧ (cleanup_expired_exceptions 5
        ⟨[⟨"CVE-9", "r", DateStr.iso 0, DateStr.malformed "oops", none, "h"⟩],
         []⟩).isOk = false :=
  malformed_expiry_raises
    ⟨[⟨"CVE-9", "r", DateStr.iso 0, DateStr.malformed "oops", none, "h"⟩], []⟩
    5 (some "img")
    ⟨"CVE-9", "r", DateStr.iso 0, DateStr.malformed "oops", none, "h"⟩
    (by decide) rfl

/-- A successful sweep of one record list keeps exactly the records whose
expiry parses to a time strictly after `now`. -/
theorem keepUnexpired_eq_filter (now : Int) :
    ∀ xs ys : List ExceptionRec, keepUnexpired now xs = Except.ok ys →
      ys = xs.filter (isUnexpired now) := by
  intro xs
  induction xs with
  | nil =>
      intro ys h
      have hy : ys = [] := by simpa [keepUnexpired] using h.symm
      subst hy
      rfl
  | cons e rest ih =>
      intro ys h
      rw [keepUnexpired_cons] at h
      cases hfe : fromisoformat e.expiry_date with
      | error m => rw [hfe] at h; cases h
      | ok t =>
          rw [hfe] at h
          cases hr : keepUnexpired now rest with
          | error m => rw [hr] at h; cases h
          | ok rest' =>
              rw [hr] at h
              simp only [Except.bind] at h
              have hrest := ih rest' hr
              by_cases hlt : now < t
              · rw [if_pos hlt] at h
                injection h with h2
                subst h2
                simp [List.filter_cons, isUnexpired, hfe, hlt, hrest]
              · rw [if_neg hlt] at h
                injection h with h2
                subst h2
                simp [List.filter_cons, isUnexpired, hfe, hlt, hrest]

/-- A record list all of whose records are unexpired sweeps to itself. -/
theorem keepUnexpired_of_all (now : Int) :
    ∀ xs : List ExceptionRec, (∀ e ∈ xs, isUnexpired now e = true) →
      keepUnexpired now xs = Except.ok xs := by
  intro xs
  induction xs with
  | nil => intro _; rfl
  | cons e rest ih =>
      intro h
      have he := h e (List.mem_cons_self e rest)
      have hrest := ih (fun x hx => h x (List.mem_cons_of_mem e hx))
      unfold isUnexpired at he
      cases hfe : fromisoformat e.expiry_date with
      | error m => rw [hfe] at he; simp at he
      | ok t =>
          rw [hfe] at he
          simp at he
          rw [keepUnexpired_cons, hfe, hrest]
          simp only [Except.bind]
          rw [if_pos he]

/-- A successful per-image sweep filters every image's record list. -/
theorem sweepImages_eq_map (now : Int) :
    ∀ d d' : List (String × List ExceptionRec), sweepImages now d = Except.ok d' →
      d' = d.map (fun p => (p.1, p.2.filter (isUnexpired now))) := by
  intro d
  induction d with
  | nil =>
      intro d' h
      have hy : d' = [] := by simpa [sweepImages] using h.symm
      subst hy
      rfl
  | cons p rest ih =>
      obtain ⟨img, recs⟩ := p
      intro d' h
      rw [sweepImages_cons] at h
      cases hk : keepUnexpired now recs with
      | error m => rw [hk] at h; cases h
      | ok recs' =>
          rw [hk] at h
          cases hr : sweepImages now rest with
          | error m => rw [hr] at h; cases h
          | ok rest' =>
              rw [hr] at h
              simp only [Except.bind] at h
              injection h with h2
              subst h2
              have h3 := keepUnexpired_eq_filter now recs recs' hk
              have h4 := ih rest' hr
              simp [h3, h4]

/-- A successful per-image sweep is a fixed point of the sweep. -/
theorem sweepImages_idem (now : Int) :
    ∀ d d' : List (String × List ExceptionRec), sweepImages now d = Except.ok d' →
      sweepImages now d' = Except.ok d' := by
  intro d
  induction d with
  | nil =>
      intro d' h
      have hy : d' = [] := by simpa [sweepImages] using h.symm
      subst hy
      rfl
  | cons p rest ih =>
      obtain ⟨img, recs⟩ := p
      intro d' h
      rw [sweepImages_cons] at h
      cases hk : keepUnexpired now recs with
      | error m => rw [hk] at h; cases h
      | ok recs' =>
          rw [hk] at h
          cases hr : sweepImages now rest with
          | error m => rw [hr] at h; cases h
          | ok rest' =>
              rw [hr] at h
              simp only [Except.bind] at h
              injection h with h2
              subst h2
              have hkeep : keepUnexpired now recs' = Except.ok recs' := by
                have h3 := keepUnexpired_eq_filter now recs recs' hk
                subst h3
                exact keepUnexpired_of_all now _
                  (fun e he => (List.mem_filter.mp he).2)
              rw [sweepImages_cons, hkeep, ih rest' hr]
              rfl

/-- C9: `cleanup_expired_exceptions` is idempotent — a second sweep at the
same evaluation time returns the swept ledger unchanged — and each successful
sweep removes exactly the entries (global and per-image) whose expiry is not
strictly after `now`. -/
theorem cleanup_idempotent (now : Int) (l l' : Ledger)
    (h : cleanup_expired_exceptions now l = Except.ok l') :
    cleanup_expired_exceptions now l' = Except.ok l'
    ∧ l'.globalExc = l.globalExc.filter (isUnexpired now)
    ∧ l'.image_specific
        = l.image_specific.map (fun p => (p.1, p.2.filter (isUnexpired now))) := by
  rw [cleanup_eq] at h
  cases hg : keepUnexpired now l.globalExc with
  | error m => rw [hg] at h; cases h
  | ok g =>
      rw [hg] at h
      cases hi : sweepImages now l.image_specific with
      | error m => rw [hi] at h; cases h
      | ok imgs =>
          rw [hi] at h
          simp only [Except.bind] at h
          injection h with h2
          subst h2
          refine ⟨?_, ?_, ?_⟩
          · have hkg : keepUnexpired now g = Except.ok g := by
              have h3 := keepUnexpired_eq_filter now l.globalExc g hg
              subst h3
              exact keepUnexpired_of_all now _
                (fun e he => (List.mem_filter.mp he).2)
            have hki : sweepImages now imgs = Except.ok imgs :=
              sweepImages_idem now l.image_specific imgs hi
            rw [cleanup_eq]
            show Except.bind (keepUnexpired now g) (fun g' =>
                Except.bind (sweepImages now imgs) (fun imgs' =>
                  Except.ok (⟨g', imgs'⟩ : Ledger)))
              = Except.ok (⟨g, imgs⟩ : Ledger)
            rw [hkg, hki]
            rfl
          · exact keepUnexpired_eq_filter now l.globalExc g hg
          · exact sweepImages_eq_map now l.image_specific imgs hi

/-- Witness for `cleanup_idempotent` at a concrete ledger with one expired
and one active global record and one expired image-scoped record. -/
theorem cleanup_idempotent_witness :
    cleanup_expired_exceptions 0
        ⟨[⟨"CVE-2", "r2", DateStr.iso (-50), DateStr.iso 100, none, "h2"⟩],
         [("img", [])]⟩
      = Except.ok
        (⟨[⟨"CVE-2", "r2", DateStr.iso (-50), DateStr.iso 100, none, "h2"⟩],
          [("img", [])]⟩ : Ledger)
    ∧ (⟨[⟨"CVE-2", "r2", DateStr.iso (-50), DateStr.iso 100, none, "h2"⟩],
        [("img", [])]⟩ : Ledger).globalExc
      = ([⟨"CVE-1", "r1", DateStr.iso (-10), DateStr.iso (-5), none, "h1"⟩,
          ⟨"CVE-2", "r2", DateStr.iso (-50), DateStr.iso 100, none, "h2"⟩]).filter
          (isUnexpired 0)
    ∧ (⟨[⟨"CVE-2", "r2", DateStr.iso (-50), DateStr.iso 100, none, "h2"⟩],
        [("img", [])]⟩ : Ledger).image_specific
      = ([("img", [⟨"CVE-1", "r1", DateStr.iso (-10), DateStr.iso (-5), none,
            "h1"⟩])]).map (fun p => (p.1, p.2.filter (isUnexpired 0))) :=
  cleanup_idempotent 0
    ⟨[⟨"CVE-1", "r1", DateStr.iso (-10), DateStr.iso (-5), none, "h1"⟩,
      ⟨"CVE-2", "r2", DateStr.iso (-50), DateStr.iso 100, none, "h2"⟩],
     [("img", [⟨"CVE-1", "r1", DateStr.iso (-10), DateStr.iso (-5), none,
        "h1"⟩])]⟩
    ⟨[⟨"CVE-2", "r2", DateStr.iso (-50), DateStr.iso 100, none, "h2"⟩],
     [("img", [])]⟩
    rfl

/-- Bumping a severity adds to the dict total one per entry keyed by that
severity. -/
theorem sumValues_bump (k : String) :
    ∀ d : List (String × Int),
      sumValues (bumpSeverity d k)
        = sumValues d + ((d.map Prod.fst).count k : Int) := by
  intro d
  induction d with
  | nil => simp [bumpSeverity, sumValues]
  | cons p rest ih =>
      obtain ⟨x, u⟩ := p
      by_cases h : x = k
      · subst h
        simp only [bumpSeverity, List.map_cons, sumValues] at ih ⊢
        simp only [if_true, List.sum_cons, List.count_cons_self]
        push_cast
        omega
      · simp only [bumpSeverity, List.map_cons, sumValues] at ih ⊢
        rw [if_neg h]
        rw [List.count_cons_of_ne (fun he => h he.symm)]
        simp only [List.sum_cons]
        omega

/-- Bumping a severity does not change the dict's key list. -/
theorem bumpSeverity_keys (k : String) (d : List (String × Int)) :
    (bumpSeverity d k).map Prod.fst = d.map Prod.fst := by
  simp only [bumpSeverity, List.map_map]
  apply List.map_congr_left
  intro p _
  by_cases h : p.1 = k <;> simp [Function.comp, h]

/-- In the five-level key list every key occurs once, so counting a key is
testing membership. -/
theorem count_fiveLevels (k : String) :
    fiveLevels.count k = if fiveLevels.contains k then 1 else 0 := by
  by_cases h1 : k = "CRITICAL"
  · subst h1; decide
  by_cases h2 : k = "HIGH"
  · subst h2; decide
  by_cases h3 : k = "MEDIUM"
  · subst h3; decide
  by_cases h4 : k = "LOW"
  · subst h4; decide
  by_cases h5 : k = "UNKNOWN"
  · subst h5; decide
  have hnm : k ∉ fiveLevels := by
    simp [fiveLevels]
    exact ⟨h1, h2, h3, h4, h5⟩
  have hcf : ¬ (fiveLevels.contains k = true) := fun hc =>
    hnm (by simpa [List.contains] using hc)
  rw [List.count_eq_zero.mpr hnm, if_neg hcf]

/-- The recount fold from any five-level accumulator adds exactly one per
finding whose (defaulted) severity is a counted level. -/
theorem sumValues_recount_go :
    ∀ (cves : List Cve) (d : List (String × Int)), d.map Prod.fst = fiveLevels →
      sumValues (cves.foldl
          (fun acc cv => bumpSeverity acc (cv.severity.getD "UNKNOWN")) d)
        = sumValues d + (cves.countP (fun cv => knownSev cv) : Int) := by
  intro cves
  induction cves with
  | nil => intro d _; simp
  | cons cv rest ih =>
      intro d hd
      simp only [List.foldl_cons]
      rw [ih (bumpSeverity d (cv.severity.getD "UNKNOWN"))
            (by rw [bumpSeverity_keys, hd])]
      rw [sumValues_bump, hd, count_fiveLevels, List.countP_cons]
      by_cases hk : fiveLevels.contains (cv.severity.getD "UNKNOWN") = true
      · have hks : knownSev cv = true := hk
        rw [if_pos hk, if_pos hks]
        push_cast
        ring
      · have hks : ¬ (knownSev cv = true) := hk
        rw [if_neg hk, if_neg hks]
        push_cast
        ring

/-- The recomputed total is the number of retained findings with a counted
severity level. -/
theorem sumValues_recountSummary (cves : List Cve) :
    sumValues (recountSummary cves)
      = (cves.countP (fun cv => knownSev cv) : Int) := by
  have h := sumValues_recount_go cves initSummary rfl
  simpa [recountSummary, initSummary, sumValues] using h

/-- C1 counterexample: with one active exception and an input finding whose
severity string `NEGLIGIBLE` is outside the five counted levels, the filtered
result keeps the finding but counts nothing:
`totalVulnerabilities = 0 ≠ 1 = len(findings)`. -/
theorem filter_aggregate_mismatch :
    filter_scan_results
        ⟨[⟨"CVE-1", "r", DateStr.iso 0, DateStr.iso 100, none, "h"⟩], []⟩ 0 none
        ⟨[⟨"CVE-2", some "NEGLIGIBLE"⟩], [("NEGLIGIBLE", 1)], 1, none, none⟩
      = Except.ok
          (⟨[⟨"CVE-2", some "NEGLIGIBLE"⟩], initSummary, 0, some [], some 0⟩ :
            ScanResult)
    ∧ (⟨[⟨"CVE-2", some "NEGLIGIBLE"⟩], initSummary, 0, some [], some 0⟩ :
        ScanResult).total_vulnerabilities
      ≠ ((⟨[⟨"CVE-2", some "NEGLIGIBLE"⟩], initSummary, 0, some [], some 0⟩ :
        ScanResult).cve_list.length : Int) :=
  ⟨rfl, by decide⟩

/-- C1 (amended): whenever at least one exception is active (so the recompute
branch runs), the filtered result satisfies
`totalVulnerabilities = sum(severitySummary.values())`; and it additionally
equals `len(findings)` provided every input finding's severity (defaulted to
`UNKNOWN` when absent) is one of the five counted levels — findings with any
other severity string stay in `findings` but are not counted. -/
theorem filter_aggregates (l : Ledger) (now : Int) (image : Option String)
    (res : ScanResult) (acts : List String)
    (hacts : get_active_exceptions l now image = Except.ok acts)
    (hne : acts ≠ []) :
    filter_scan_results l now image res = Except.ok (applyFilter acts res)
    ∧ (applyFilter acts res).total_vulnerabilities
        = sumValues (applyFilter acts res).severity_summary
    ∧ ((∀ c ∈ res.cve_list, knownSev c = true) →
        (applyFilter acts res).total_vulnerabilities
          = ((applyFilter acts res).cve_list.length : Int)) := by
  refine ⟨?_, rfl, ?_⟩
  · rw [filter_eq, hacts]
    simp only [Except.bind]
    rw [if_neg hne]
  · intro hall
    show sumValues (recountSummary
          (res.cve_list.filter (fun c => ¬ acts.contains c.id)))
        = ((res.cve_list.filter (fun c => ¬ acts.contains c.id)).length : Int)
    rw [sumValues_recountSummary]
    have hlen : (res.cve_list.filter (fun c => ¬ acts.contains c.id)).countP
          (fun cv => knownSev cv)
        = (res.cve_list.filter (fun c => ¬ acts.contains c.id)).length :=
      List.countP_eq_length.mpr (fun c hc => hall c (List.mem_of_mem_filter hc))
    exact_mod_cast hlen

/-- Witness for `filter_aggregates` with one active exception and a finding
of a counted severity. -/
theorem filter_aggregates_witness :
    filter_scan_results
        ⟨[⟨"CVE-1", "r", DateStr.iso 0, DateStr.iso 100, none, "h"⟩], []⟩ 0 none
        ⟨[⟨"CVE-2", some "HIGH"⟩], [("HIGH", 1)], 1, none, none⟩
      = Except.ok (applyFilter ["CVE-1"]
          ⟨[⟨"CVE-2", some "HIGH"⟩], [("HIGH", 1)], 1, none, none⟩)
    ∧ (applyFilter ["CVE-1"]
          ⟨[⟨"CVE-2", some "HIGH"⟩], [("HIGH", 1)], 1, none, none⟩).total_vulnerabilities
      = ((applyFilter ["CVE-1"]
          ⟨[⟨"CVE-2", some "HIGH"⟩], [("HIGH", 1)], 1, none,
            none⟩).cve_list.length : Int) :=
  ⟨(filter_aggregates
      ⟨[⟨"CVE-1", "r", DateStr.iso 0, DateStr.iso 100, none, "h"⟩], []⟩ 0 none
      ⟨[⟨"CVE-2", some "HIGH"⟩], [("HIGH", 1)], 1, none, none⟩ ["CVE-1"]
      rfl (by decide)).1,
   (filter_aggregates
      ⟨[⟨"CVE-1", "r", DateStr.iso 0, DateStr.iso 100, none, "h"⟩], []⟩ 0 none
      ⟨[⟨"CVE-2", some "HIGH"⟩], [("HIGH", 1)], 1, none, none⟩ ["CVE-1"]
      rfl (by decide)).2.2 (by decide)⟩
